import Mathlib

/-!
Verification of the cache-pull step (src/main.go) against its
natural-language specification.

The development shallowly embeds the program: each Go function of the core
pipeline is translated into an executable Lean definition, and the process
run (`main`) is modelled as a function from an environment of collaborator
behaviours (filesystem, network, archive contents) to an outcome together
with a trace of observable events (requests issued, handles closed, the
restore call, extraction attempts, ...).  Helper routines that live in this
repository but outside the provided source file (the restorable reader, the
first-entry inspector, the two extractors) are represented by oracle fields
of the environment, modelled from the specification; the branching logic
that the claims are about lives entirely in src/main.go and is translated
verbatim.
-/

/-! ### Go string helpers used by src/main.go -/

/-- Char-list test that `p` is an initial segment of `s`
(models strings.HasPrefix, argument order: pattern, subject). -/
def isPreOf : List Char → List Char → Bool
  | [], _ => true
  | _ :: _, [] => false
  | p :: ps, c :: cs => (p = c) && isPreOf ps cs

/-- Models strings.HasPrefix s pre. -/
def hasPre (s pre : String) : Bool := isPreOf pre.data s.data

/-- Models strings.TrimPrefix s pre: drops `pre` from the front of `s`
when present, otherwise returns `s` unchanged. -/
def dropPre (s pre : String) : String :=
  if hasPre s pre then ⟨s.data.drop pre.data.length⟩ else s

/-- Models unicode.IsSpace on the ASCII white-space characters
(space, tab, newline, vertical tab, form feed, carriage return), the
relevant fragment for stack identifiers. -/
def isSpaceGo (c : Char) : Bool :=
  c = ' ' || c = '\t' || c = '\n' || c = Char.ofNat 11 || c = Char.ofNat 12 || c = '\r'

/-- Models strings.TrimSpace: removes leading and trailing white space. -/
def goTrimSpace (s : String) : String :=
  ⟨((s.data.dropWhile isSpaceGo).reverse.dropWhile isSpaceGo).reverse⟩

/-- Models path/filepath.Base on unix: empty path gives ".", a path of
slashes gives "/", otherwise trailing slashes are removed and the part
after the last remaining slash is returned. -/
def goBase (p : String) : String :=
  if p.data = [] then "."
  else
    let r := p.data.reverse.dropWhile (fun c => c = '/')
    if r = [] then "/"
    else ⟨(r.takeWhile (fun c => c ≠ '/')).reverse⟩

/-! ### A model of encoding/json sufficient for the two Unmarshal calls

`parseStackID` (src/main.go:134) and `getCacheDownloadURL`
(src/main.go:122) each decode one optional string field from a JSON
document.  We model the JSON text grammar with an executable
recursive-descent reader (fuelled for termination) and Go's
`json.Unmarshal`-into-struct semantics on the resulting tree: a document
whose top level is neither `null` nor an object is a type error, unknown
fields are skipped, and a matching field (case-insensitive name match)
whose value is neither a string nor `null` is a type error. -/

inductive JVal
  | jnull
  | jbool (b : Bool)
  | jnum (lexeme : String)
  | jstr (s : String)
  | jarr (items : List JVal)
  | jobj (fields : List (String × JVal))

/-- JSON white space per RFC 8259 (the set Go's scanner skips). -/
def isJsonWs (c : Char) : Bool := c = ' ' || c = '\t' || c = '\n' || c = '\r'

def skipWs (s : List Char) : List Char := s.dropWhile isJsonWs

def isDigitC (c : Char) : Bool := '0' ≤ c && c ≤ '9'

def isHexC (c : Char) : Bool :=
  isDigitC c || ('a' ≤ c && c ≤ 'f') || ('A' ≤ c && c ≤ 'F')

def hexVal (c : Char) : Nat :=
  if isDigitC c then c.toNat - 48
  else if 'a' ≤ c && c ≤ 'f' then c.toNat - 87
  else c.toNat - 55

/-- Reads the remainder of a JSON string literal (the opening quote
already consumed), decoding escapes; `none` on malformed input. -/
def pStrAux : Nat → List Char → List Char → Option (String × List Char)
  | 0, _, _ => none
  | _ + 1, [], _ => none
  | f + 1, c :: rest, acc =>
    if c = '"' then some (⟨acc.reverse⟩, rest)
    else if c = '\\' then
      match rest with
      | [] => none
      | e :: rest2 =>
        if e = 'u' then
          match rest2 with
          | h1 :: h2 :: h3 :: h4 :: rest3 =>
            if isHexC h1 && isHexC h2 && isHexC h3 && isHexC h4 then
              pStrAux f rest3
                (Char.ofNat (((hexVal h1 * 16 + hexVal h2) * 16 + hexVal h3) * 16 + hexVal h4)
                  :: acc)
            else none
          | _ => none
        else if e = '"' then pStrAux f rest2 ('"' :: acc)
        else if e = '\\' then pStrAux f rest2 ('\\' :: acc)
        else if e = '/' then pStrAux f rest2 ('/' :: acc)
        else if e = 'b' then pStrAux f rest2 (Char.ofNat 8 :: acc)
        else if e = 'f' then pStrAux f rest2 (Char.ofNat 12 :: acc)
        else if e = 'n' then pStrAux f rest2 ('\n' :: acc)
        else if e = 'r' then pStrAux f rest2 ('\r' :: acc)
        else if e = 't' then pStrAux f rest2 ('\t' :: acc)
        else none
    else if c.toNat < 32 then none
    else pStrAux f rest (c :: acc)

/-- Optional fraction part of a JSON number. -/
def pFrac : List Char → Option (List Char × List Char)
  | '.' :: r =>
    let fs := r.takeWhile isDigitC
    if fs = [] then none else some ('.' :: fs, r.dropWhile isDigitC)
  | s => some ([], s)

/-- Optional exponent part of a JSON number. -/
def pExp : List Char → Option (List Char × List Char)
  | [] => some ([], [])
  | c :: r =>
    if c = 'e' || c = 'E' then
      match r with
      | '+' :: r2 =>
        let ds := r2.takeWhile isDigitC
        if ds = [] then none else some (c :: '+' :: ds, r2.dropWhile isDigitC)
      | '-' :: r2 =>
        let ds := r2.takeWhile isDigitC
        if ds = [] then none else some (c :: '-' :: ds, r2.dropWhile isDigitC)
      | r2 =>
        let ds := r2.takeWhile isDigitC
        if ds = [] then none else some (c :: ds, r2.dropWhile isDigitC)
    else some ([], c :: r)

/-- A JSON number; the lexeme is kept verbatim (its numeric value is never
needed by the program).  The integer part follows RFC 8259 and Go's
scanner: it is a single 0 or starts with a nonzero digit, so a number with
a leading zero such as 01 is rejected. -/
def pNum (s : List Char) : Option (String × List Char) :=
  let sr : List Char × List Char := match s with
    | '-' :: r => (['-'], r)
    | _ => ([], s)
  let ds := sr.2.takeWhile isDigitC
  match ds with
  | [] => none
  | '0' :: _ :: _ => none
  | _ =>
    match pFrac (sr.2.dropWhile isDigitC) with
    | none => none
    | some (fr, s3) =>
      match pExp s3 with
      | none => none
      | some (ex, s4) => some (⟨sr.1 ++ ds ++ fr ++ ex⟩, s4)

def lbrace : Char := Char.ofNat 123
def rbrace : Char := Char.ofNat 125

mutual

/-- One JSON value (leading white space allowed). -/
def pVal : Nat → List Char → Option (JVal × List Char)
  | 0, _ => none
  | f + 1, s =>
    match skipWs s with
    | [] => none
    | c :: rest =>
      if c = 'n' then
        match rest with
        | 'u' :: 'l' :: 'l' :: r => some (.jnull, r)
        | _ => none
      else if c = 't' then
        match rest with
        | 'r' :: 'u' :: 'e' :: r => some (.jbool true, r)
        | _ => none
      else if c = 'f' then
        match rest with
        | 'a' :: 'l' :: 's' :: 'e' :: r => some (.jbool false, r)
        | _ => none
      else if c = '"' then
        match pStrAux (rest.length + 1) rest [] with
        | some (str, r) => some (.jstr str, r)
        | none => none
      else if c = '[' then
        match skipWs rest with
        | ']' :: r => some (.jarr [], r)
        | r2 =>
          match pItems f r2 with
          | some (xs, r3) => some (.jarr xs, r3)
          | none => none
      else if c = lbrace then
        match skipWs rest with
        | [] => none
        | c2 :: r =>
          if c2 = rbrace then some (.jobj [], r)
          else
            match pFields f (c2 :: r) with
            | some (fs2, r3) => some (.jobj fs2, r3)
            | none => none
      else if c = '-' || isDigitC c then
        match pNum (c :: rest) with
        | some (lex, r) => some (.jnum lex, r)
        | none => none
      else none

/-- Comma-separated array items, consuming the closing bracket. -/
def pItems : Nat → List Char → Option (List JVal × List Char)
  | 0, _ => none
  | f + 1, s =>
    match pVal f s with
    | none => none
    | some (v, r) =>
      match skipWs r with
      | ',' :: r2 =>
        match pItems f r2 with
        | some (vs, r3) => some (v :: vs, r3)
        | none => none
      | ']' :: r2 => some ([v], r2)
      | _ => none

/-- Comma-separated object members, consuming the closing brace. -/
def pFields : Nat → List Char → Option (List (String × JVal) × List Char)
  | 0, _ => none
  | f + 1, s =>
    match skipWs s with
    | '"' :: r =>
      match pStrAux (r.length + 1) r [] with
      | none => none
      | some (k, r2) =>
        match skipWs r2 with
        | ':' :: r3 =>
          match pVal f r3 with
          | none => none
          | some (v, r4) =>
            match skipWs r4 with
            | [] => none
            | c5 :: r5 =>
              if c5 = ',' then
                match pFields f r5 with
                | some (fs2, r6) => some ((k, v) :: fs2, r6)
                | none => none
              else if c5 = rbrace then some ([(k, v)], r5)
              else none
        | _ => none
    | _ => none

end

/-- Models the parse phase of json.Unmarshal: the input must be exactly one
JSON document, possibly surrounded by white space. -/
def jsonParse (s : String) : Option JVal :=
  match pVal (2 * s.data.length + 8) s.data with
  | some (v, rest) => if skipWs rest = [] then some v else none
  | none => none

/-- ASCII case folding (models the fragment of Go's case-insensitive field
matching relevant to the two lowercase field names used here). -/
def foldChar (c : Char) : Char :=
  if 'A' ≤ c && c ≤ 'Z' then Char.ofNat (c.toNat + 32) else c

/-- Case-insensitive name equality used by json.Unmarshal field matching. -/
def eqFold (a b : String) : Bool :=
  (a.data.map foldChar) == (b.data.map foldChar)

/-- One member step of the struct decode: an already-recorded error is
kept, a matching member must hold a string (recorded, last one wins) or
null (field left unchanged), and any other member is skipped. -/
def decodeStep (fieldName : String) (acc : Option String)
    (kv : String × JVal) : Option String :=
  match acc with
  | none => none
  | some cur =>
    if eqFold kv.1 fieldName then
      match kv.2 with
      | .jstr s2 => some s2
      | .jnull => some cur
      | _ => none
    else some cur

/-- Models json.Unmarshal of a parsed document into a struct with one
optional string field named `fieldName`: `null` leaves the zero value,
an object decodes each matching member in order (a string sets the field,
`null` keeps it, anything else is a type error reported at the end), and
any other top-level value is a type error.  Returns `none` exactly when
Unmarshal would return an error. -/
def decodeField (fieldName : String) (v : JVal) : Option String :=
  match v with
  | .jnull => some ""
  | .jobj fs => fs.foldl (decodeStep fieldName) (some "")
  | _ => none

/-- Translated from parseStackID (src/main.go:134): unmarshal the bytes
into a struct with the single optional field stack_id. -/
def parseStackID (b : String) : Except String String :=
  match jsonParse b with
  | none => .error "invalid JSON document"
  | some v =>
    match decodeField "stack_id" v with
    | none => .error "cannot unmarshal value into field stack_id of type string"
    | some s => .ok s

/-- True when the bytes form a single valid JSON document (the property the
claim about parseStackID quantifies over). -/
def validJson (b : String) : Bool := (jsonParse b).isSome

/-- Decode of the download-URL response model (src/main.go:119). -/
def decodeRespModel (v : JVal) : Option String := decodeField "download_url" v

/-- Whether an Except value is a success. -/
def exOk {α : Type} : Except String α → Bool
  | .ok _ => true
  | .error _ => false

example : parseStackID "null" = .ok "" := rfl
example : exOk (parseStackID "[]") = false := rfl
example : validJson "[]" = true := rfl
example : validJson "\x7b\"a\":01\x7d" = false := rfl
example : exOk (parseStackID "\x7b\"a\":01\x7d") = false := rfl
example : validJson "\x7b\"a\":10\x7d" = true := rfl
example : validJson "\x7b\"a\":0.5\x7d" = true := rfl
example : validJson "\x7b\"a\":-0\x7d" = true := rfl
example : validJson "\x7b\"a\":-01\x7d" = false := rfl
example : goBase "bundle/archive_info.json" = "archive_info.json" := by decide
example : goTrimSpace "  osx \t" = "osx" := by decide

/-! ### Observable events and the run environment

The pipeline's observable behaviour is recorded as a trace of events.
Every Close in src/main.go is a `resp.Body.Close()` on one of the three
HTTP requests; the source contains no Close for the archive stream opened
in `main` (os.Open / performRequest's returned body) and no Close for the
file created by downloadCacheArchive, so the constructors `closeStream`
and `closeFile` exist in the vocabulary but are never emitted. -/

inductive ReqKind
  | urlLookup
  | streamDownload
  | fallbackDownload
deriving DecidableEq

inductive Ev
  | openLocal (path : String)
  | request (kind : ReqKind) (url : String) (timeoutSec : Option Nat)
  | closeBody (kind : ReqKind)
  | createFile (path : String)
  | closeFile (path : String)
  | closeStream
  | wrapRestore
  | readFirstEntry
  | restore
  | readPayload
  | compare (archiveID currentID : String)
  | warnNoStackInfo
  | warnStackMismatch
  | extractStream
  | fallback
  | uncompressFile (path : String)
deriving DecidableEq

inductive Outcome
  | ok
  | skipped
  | failed (msg : String)
deriving DecidableEq

/-- Process exit code of an outcome: failf exits 1, the stack-mismatch
branch calls os.Exit(0), a normal return exits 0. -/
def exitCode : Outcome → Nat
  | .ok => 0
  | .skipped => 0
  | .failed _ => 1

/-- An HTTP response as far as the program observes it. -/
structure HttpResp where
  status : Nat
  body : String
  bodyReadOk : Bool
deriving DecidableEq

/-- Modelled from the spec: the result of the Archive Prefix Inspector
(readFirstEntry, not in src/): the first tar entry's header name, its
payload bytes, and whether reading the payload to the end succeeds. -/
structure FirstEntry where
  name : String
  payload : String
  readOk : Bool
deriving DecidableEq

/-- The environment of one run: the step configuration plus oracles fixing
the behaviour of the excluded collaborators (filesystem, network) and of
the repository code that is not in the provided source file (the archive
inspector and the two extractors, modelled from the spec). -/
structure Env where
  /-- Config.CacheAPIURL (input cache_api_url). -/
  cacheAPIURL : String
  /-- Config.StackID (input BITRISEIO_STACK_ID). -/
  stackID : String
  /-- Whether os.Open succeeds on a given path. -/
  openOk : String → Bool
  /-- Error of http.NewRequest in getCacheDownloadURL, when it fails. -/
  newReqErr : Option String
  /-- client.Do with the given timeout (seconds) in getCacheDownloadURL. -/
  doTimeout : String → Nat → Except String HttpResp
  /-- http.Get (no timeout) as used by performRequest and
  downloadCacheArchive. -/
  get : String → Except String HttpResp
  /-- Whether os.Create succeeds on a given path. -/
  createOk : String → Bool
  /-- Whether io.Copy of the response body into the created file succeeds. -/
  copyOk : Bool
  /-- Modelled from the spec: outcome of readFirstEntry on this archive. -/
  firstEntry : Except String FirstEntry
  /-- Modelled from the spec: error of the Streaming Extraction Engine
  (extractCacheArchive, not in src/), `none` on success. -/
  extractErr : Option String
  /-- Modelled from the spec: error of the file-based fallback extractor
  (uncompressArchive, not in src/) on a given path, `none` on success. -/
  uncompressErr : String → Option String

/-- The fixed staging path of the fallback download (src/main.go:53). -/
def cacheArchivePath : String := "/tmp/cache-archive.tar"

/-- Translated from downloadCacheArchive (src/main.go:28): a file:// URI is
answered by stripping the scheme, otherwise the archive is downloaded with
http.Get to the fixed path.  The response body close is deferred, so it is
emitted on every path after a response was obtained; the created file is
never closed by the source. -/
def downloadCacheArchive (env : Env) (url : String) :
    Except String String × List Ev :=
  if hasPre url "file://" then (.ok (dropPre url "file://"), [])
  else
    match env.get url with
    | .error e => (.error e, [.request .fallbackDownload url none])
    | .ok resp =>
      if resp.status ≠ 200 then
        if resp.bodyReadOk then
          (.error ("non success response code: " ++ toString resp.status),
           [.request .fallbackDownload url none, .closeBody .fallbackDownload])
        else
          (.error "failed to read response body",
           [.request .fallbackDownload url none, .closeBody .fallbackDownload])
      else if env.createOk cacheArchivePath then
        if env.copyOk then
          (.ok cacheArchivePath,
           [.request .fallbackDownload url none, .createFile cacheArchivePath,
            .closeBody .fallbackDownload])
        else
          (.error "copy failed",
           [.request .fallbackDownload url none, .createFile cacheArchivePath,
            .closeBody .fallbackDownload])
      else
        (.error "failed to open the local cache file for write",
         [.request .fallbackDownload url none, .closeBody .fallbackDownload])

/-- Translated from performRequest (src/main.go:68): http.Get with the
default client; on a non-200 status the body is read and closed and an
error returned; on 200 the body is returned to the caller unclosed. -/
def performRequest (env : Env) (url : String) :
    Except String Unit × List Ev :=
  match env.get url with
  | .error e => (.error e, [.request .streamDownload url none])
  | .ok resp =>
    if resp.status ≠ 200 then
      if resp.bodyReadOk then
        (.error ("non success response code: " ++ toString resp.status),
         [.request .streamDownload url none, .closeBody .streamDownload])
      else
        (.error "failed to read response body",
         [.request .streamDownload url none, .closeBody .streamDownload])
    else (.ok (), [.request .streamDownload url none])

/-- The straight-line tail of getCacheDownloadURL once a response exists
(src/main.go:110): read the body, check the status range, unmarshal the
download_url field, reject an empty URL.  Split out because every one of
these paths produces the same events (the request, then the deferred body
close). -/
def handleLookupResp (resp : HttpResp) : Except String String :=
  if resp.bodyReadOk then
    if resp.status < 200 || resp.status > 202 then
      .error "build cache not found"
    else
      match jsonParse resp.body with
      | none => .error "failed to parse JSON response"
      | some v =>
        match decodeRespModel v with
        | none => .error "failed to parse JSON response"
        | some u =>
          if u = "" then .error "download URL not included in the response"
          else .ok u
  else .error "request sent, but failed to read response body"

/-- Translated from getCacheDownloadURL (src/main.go:93): the one request
that carries a timeout (20 seconds); its body close is deferred, hence
emitted on every path once a response exists. -/
def getCacheDownloadURL (env : Env) (apiURL : String) :
    Except String String × List Ev :=
  match env.newReqErr with
  | some e => (.error ("failed to create request: " ++ e), [])
  | none =>
    match env.doTimeout apiURL 20 with
    | .error e =>
      (.error ("failed to send request: " ++ e),
       [.request .urlLookup apiURL (some 20)])
    | .ok resp =>
      (handleLookupResp resp,
       [.request .urlLookup apiURL (some 20), .closeBody .urlLookup])

/-- Stream acquisition of main (src/main.go:169): a file:// cache API URL
is opened locally (the URI itself is kept for the fallback), otherwise the
download URL is looked up and the archive stream requested.  Returns the
cacheURI on success. -/
def acquire (env : Env) : Except String String × List Ev :=
  if hasPre env.cacheAPIURL "file://" then
    let pth := dropPre env.cacheAPIURL "file://"
    if env.openOk pth then (.ok env.cacheAPIURL, [.openLocal pth])
    else (.error "Failed to open cache archive file", [.openLocal pth])
  else
    match getCacheDownloadURL env env.cacheAPIURL with
    | (.error e, tr) => (.error ("Failed to get cache download url: " ++ e), tr)
    | (.ok durl, tr) =>
      match performRequest env durl with
      | (.error e, tr2) =>
        (.error ("Failed to perform cache download request: " ++ e), tr ++ tr2)
      | (.ok _, tr2) => (.ok durl, tr ++ tr2)

/-- Result of the stack-compatibility block. -/
inductive CheckRes
  | proceed
  | skipExit
  | fail (msg : String)
deriving DecidableEq

/-- The stack-compatibility block of main (src/main.go:203): read the first
archive entry, restore the reader, and when the entry's base name is
archive_info.json read and parse its payload and compare stack ids.
Note that Restore is called directly after the first entry was decoded,
before the payload is read. -/
def stackCheck (env : Env) (cur : String) : CheckRes × List Ev :=
  match env.firstEntry with
  | .error e =>
    (.fail ("Failed to get first archive entry: " ++ e), [.readFirstEntry])
  | .ok fe =>
    if goBase fe.name = "archive_info.json" then
      if fe.readOk then
        match parseStackID fe.payload with
        | .error e =>
          (.fail ("Failed to parse first archive entry: " ++ e),
           [.readFirstEntry, .restore, .readPayload])
        | .ok aid =>
          if aid ≠ cur then
            (.skipExit,
             [.readFirstEntry, .restore, .readPayload, .compare aid cur,
              .warnStackMismatch])
          else
            (.proceed,
             [.readFirstEntry, .restore, .readPayload, .compare aid cur])
      else
        (.fail "Failed to read first archive entry",
         [.readFirstEntry, .restore, .readPayload])
    else (.proceed, [.readFirstEntry, .restore, .warnNoStackInfo])

/-- The extraction phase of main (src/main.go:240): try the streaming
extractor on the restored stream; on failure fall back once to
downloadCacheArchive plus the file-based extractor, whose failures are
fatal. -/
def extractPhase (env : Env) (uri : String) : Outcome × List Ev :=
  match env.extractErr with
  | none => (.ok, [.extractStream])
  | some _ =>
    match downloadCacheArchive env uri with
    | (.error e, tr) =>
      (.failed ("Fallback failed, unable to download cache archive: " ++ e),
       .extractStream :: .fallback :: tr)
    | (.ok pth, tr) =>
      match env.uncompressErr pth with
      | some e =>
        (.failed ("Fallback failed, unable to uncompress cache archive file: " ++ e),
         .extractStream :: .fallback :: (tr ++ [.uncompressFile pth]))
      | none =>
        (.ok, .extractStream :: .fallback :: (tr ++ [.uncompressFile pth]))

/-- Everything main does after the stream was acquired and wrapped in the
restorable reader (src/main.go:200): the stack check runs only when the
trimmed configured stack id is non-empty, then extraction. -/
def afterAcquire (env : Env) (uri : String) : Outcome × List Ev :=
  let cur := goTrimSpace env.stackID
  if cur.length > 0 then
    match stackCheck env cur with
    | (.fail e, tr2) => (.failed e, .wrapRestore :: tr2)
    | (.skipExit, tr2) => (.skipped, .wrapRestore :: tr2)
    | (.proceed, tr2) =>
      let res := extractPhase env uri
      (res.1, .wrapRestore :: (tr2 ++ res.2))
  else
    let res := extractPhase env uri
    (res.1, .wrapRestore :: res.2)

/-- Translated from main (src/main.go:151): an empty cache API URL is a
successful no-op; otherwise acquire the stream, wrap it, optionally check
stack compatibility, extract, and fall back on streaming failure. -/
def mainRun (env : Env) : Outcome × List Ev :=
  if env.cacheAPIURL = "" then (.ok, [])
  else
    match acquire env with
    | (.error e, tr) => (.failed e, tr)
    | (.ok uri, tr) =>
      let res := afterAcquire env uri
      (res.1, tr ++ res.2)

/-! ### Concrete environments used by counterexamples and witnesses -/

/-- A run on a local archive whose first entry is an archive_info.json
with stack id "osx", configured stack id "osx", everything succeeding. -/
def envC1 : Env :=
  { cacheAPIURL := "file:///a.tar"
    stackID := "osx"
    openOk := fun _ => true
    newReqErr := none
    doTimeout := fun _ _ => .ok { status := 200, body := "", bodyReadOk := true }
    get := fun _ => .ok { status := 200, body := "", bodyReadOk := true }
    createOk := fun _ => true
    copyOk := true
    firstEntry := .ok { name := "archive_info.json", payload := "\x7b\"stack_id\":\"osx\"\x7d", readOk := true }
    extractErr := none
    uncompressErr := fun _ => none }

example :
    mainRun envC1 =
      (.ok,
       [.openLocal "/a.tar", .wrapRestore, .readFirstEntry, .restore,
        .readPayload, .compare "osx" "osx", .extractStream]) := by decide

/-- A remote run with a blank stack id whose streaming extraction fails and
whose fallback download and extraction succeed. -/
def envC2 : Env :=
  { cacheAPIURL := "https://api.example/c"
    stackID := ""
    openOk := fun _ => true
    newReqErr := none
    doTimeout := fun _ _ =>
      .ok { status := 200, body := "\x7b\"download_url\":\"https://dl.example/a\"\x7d", bodyReadOk := true }
    get := fun _ => .ok { status := 200, body := "", bodyReadOk := true }
    createOk := fun _ => true
    copyOk := true
    firstEntry := .ok { name := "archive_info.json", payload := "\x7b\x7d", readOk := true }
    extractErr := some "unexpected EOF"
    uncompressErr := fun _ => none }

example :
    mainRun envC2 =
      (.ok,
       [.request .urlLookup "https://api.example/c" (some 20), .closeBody .urlLookup,
        .request .streamDownload "https://dl.example/a" none, .wrapRestore,
        .extractStream, .fallback,
        .request .fallbackDownload "https://dl.example/a" none,
        .createFile "/tmp/cache-archive.tar", .closeBody .fallbackDownload,
        .uncompressFile "/tmp/cache-archive.tar"]) := by decide

/-- A local run whose archive carries a different stack id than the one
configured. -/
def envC3 : Env :=
  { envC1 with
    cacheAPIURL := "file:///b.tar"
    stackID := "osx-xcode"
    firstEntry := .ok { name := "archive_info.json", payload := "\x7b\"stack_id\":\"linux-docker\"\x7d", readOk := true } }

example :
    mainRun envC3 =
      (.skipped,
       [.openLocal "/b.tar", .wrapRestore, .readFirstEntry, .restore,
        .readPayload, .compare "linux-docker" "osx-xcode", .warnStackMismatch]) := by decide

/-- A local run with a corrupt first archive entry (header decode fails). -/
def envC4 : Env :=
  { envC1 with
    cacheAPIURL := "file:///f.tar"
    stackID := "s"
    firstEntry := .error "bad header" }

example :
    mainRun envC4 =
      (.failed "Failed to get first archive entry: bad header",
       [.openLocal "/f.tar", .wrapRestore, .readFirstEntry]) := by decide

/-- A successful local run with a blank configured stack id: the simplest
complete run, on which every acquired handle can be inspected. -/
def envC5 : Env :=
  { envC1 with cacheAPIURL := "file:///c.tar", stackID := "" }

example :
    mainRun envC5 = (.ok, [.openLocal "/c.tar", .wrapRestore, .extractStream]) := by decide

/-- A local run with a white-space-only stack id and an archive whose first
entry could not even be decoded: the check must be skipped anyway. -/
def envC6 : Env :=
  { envC1 with
    cacheAPIURL := "file:///d.tar"
    stackID := " \t "
    firstEntry := .error "unused" }

example :
    mainRun envC6 = (.ok, [.openLocal "/d.tar", .wrapRestore, .extractStream]) := by decide

/-- A local run whose metadata entry sits under a directory in the archive. -/
def envC7 : Env :=
  { envC1 with
    cacheAPIURL := "file:///e.tar"
    stackID := "s1"
    firstEntry := .ok { name := "bundle/archive_info.json", payload := "\x7b\"stack_id\":\"s1\"\x7d", readOk := true } }

example :
    mainRun envC7 =
      (.ok,
       [.openLocal "/e.tar", .wrapRestore, .readFirstEntry, .restore,
        .readPayload, .compare "s1" "s1", .extractStream]) := by decide

/-- A local run with white space around the configured stack id and a
trailing space inside the archive's stack id. -/
def envC10 : Env :=
  { envC1 with
    cacheAPIURL := "file:///g.tar"
    stackID := " osx "
    firstEntry := .ok { name := "archive_info.json", payload := "\x7b\"stack_id\":\"osx \"\x7d", readOk := true } }

example :
    mainRun envC10 =
      (.skipped,
       [.openLocal "/g.tar", .wrapRestore, .readFirstEntry, .restore,
        .readPayload, .compare "osx " "osx", .warnStackMismatch]) := by decide

/-! ### Trace structure lemmas -/

/-- The events that stream acquisition can produce: the local open, the
lookup and stream-download requests and their body closes. -/
def isAcqEv : Ev → Bool
  | .openLocal _ => true
  | .request .urlLookup _ _ => true
  | .request .streamDownload _ _ => true
  | .closeBody .urlLookup => true
  | .closeBody .streamDownload => true
  | _ => false

/-- The events the fallback downloader can produce. -/
def isFbEv : Ev → Bool
  | .request .fallbackDownload _ _ => true
  | .closeBody .fallbackDownload => true
  | .createFile _ => true
  | _ => false

/-- Number of occurrences of an event in a trace. -/
def countEv (e : Ev) (tr : List Ev) : Nat :=
  (tr.filter (fun x => decide (x = e))).length

theorem countEv_append (e : Ev) (l1 l2 : List Ev) :
    countEv e (l1 ++ l2) = countEv e l1 + countEv e l2 := by
  simp [countEv, List.filter_append]

theorem countEv_eq_zero {e : Ev} {l : List Ev} (h : e ∉ l) : countEv e l = 0 := by
  simp only [countEv, List.length_eq_zero, List.filter_eq_nil_iff, decide_eq_true_eq]
  intro a ha hae
  exact h (hae ▸ ha)

theorem getC_trace (env : Env) (u : String) :
    (getCacheDownloadURL env u).2 = [] ∨
    (getCacheDownloadURL env u).2 = [.request .urlLookup u (some 20)] ∨
    (getCacheDownloadURL env u).2 =
      [.request .urlLookup u (some 20), .closeBody .urlLookup] := by
  rcases hn : env.newReqErr with _ | e1
  · rcases hd : env.doTimeout u 20 with e2 | resp <;>
      simp [getCacheDownloadURL, hn, hd]
  · simp [getCacheDownloadURL, hn]

theorem perform_trace (env : Env) (u : String) :
    (performRequest env u).2 = [.request .streamDownload u none] ∨
    (performRequest env u).2 =
      [.request .streamDownload u none, .closeBody .streamDownload] := by
  rcases hg : env.get u with e1 | resp
  · simp [performRequest, hg]
  · by_cases hs : resp.status = 200 <;> by_cases hb : resp.bodyReadOk <;>
      simp [performRequest, hg, hs, hb]

theorem mem_lookup_trace {env : Env} {u : String} {e : Ev}
    (he : e ∈ (getCacheDownloadURL env u).2) : isAcqEv e = true := by
  rcases getC_trace env u with h | h | h <;> rw [h] at he <;> simp at he
  · simp [he, isAcqEv]
  · rcases he with he | he <;> simp [he, isAcqEv]

theorem mem_perform_trace {env : Env} {u : String} {e : Ev}
    (he : e ∈ (performRequest env u).2) : isAcqEv e = true := by
  rcases perform_trace env u with h | h <;> rw [h] at he <;> simp at he
  · simp [he, isAcqEv]
  · rcases he with he | he <;> simp [he, isAcqEv]

theorem acquire_events (env : Env) :
    ∀ e ∈ (acquire env).2, isAcqEv e = true := by
  intro e he
  by_cases hp : hasPre env.cacheAPIURL "file://"
  · by_cases ho : env.openOk (dropPre env.cacheAPIURL "file://") <;>
      simp [acquire, hp, ho] at he <;> simp [he, isAcqEv]
  · rcases hg : getCacheDownloadURL env env.cacheAPIURL with ⟨r, tr⟩
    rcases r with eg | durl
    · simp [acquire, hp, hg] at he
      have : e ∈ (getCacheDownloadURL env env.cacheAPIURL).2 := by
        rw [hg]; exact he
      exact mem_lookup_trace this
    · rcases hq : performRequest env durl with ⟨r2, tr2⟩
      rcases r2 with e2 | u2 <;> simp [acquire, hp, hg, hq] at he <;>
        rcases he with he | he
      · exact mem_lookup_trace (by rw [hg]; exact he)
      · exact mem_perform_trace (by rw [hq]; exact he)
      · exact mem_lookup_trace (by rw [hg]; exact he)
      · exact mem_perform_trace (by rw [hq]; exact he)

theorem dl_events (env : Env) (u : String) :
    ∀ e ∈ (downloadCacheArchive env u).2, isFbEv e = true := by
  intro e he
  by_cases hp : hasPre u "file://"
  · simp [downloadCacheArchive, hp] at he
  · rcases hg : env.get u with e1 | resp
    · simp [downloadCacheArchive, hp, hg] at he
      simp [he, isFbEv]
    · by_cases hs : resp.status = 200
      · by_cases hc : env.createOk cacheArchivePath
        · by_cases hcp : env.copyOk <;>
            simp [downloadCacheArchive, hp, hg, hs, hc, hcp] at he <;>
            rcases he with he | he | he <;> simp [he, isFbEv]
        · by_cases hb : resp.bodyReadOk <;>
            simp [downloadCacheArchive, hp, hg, hs, hc, hb] at he <;>
            rcases he with he | he <;> simp [he, isFbEv]
      · by_cases hb : resp.bodyReadOk <;>
          simp [downloadCacheArchive, hp, hg, hs, hb] at he <;>
          rcases he with he | he <;> simp [he, isFbEv]

theorem strLenPos (s : String) (h : s ≠ "") : 0 < s.length := by
  rcases s with ⟨l⟩
  cases l with
  | nil => exact absurd rfl h
  | cons a t => simp [String.length]

theorem mainRun_acq_ok (env : Env) (uri : String) (tr0 : List Ev)
    (hapi : env.cacheAPIURL ≠ "")
    (hacq : acquire env = (.ok uri, tr0)) :
    mainRun env = ((afterAcquire env uri).1, tr0 ++ (afterAcquire env uri).2) := by
  simp [mainRun, hapi, hacq]

theorem afterAcquire_pos (env : Env) (uri : String)
    (hcur : goTrimSpace env.stackID ≠ "") :
    afterAcquire env uri =
      (match stackCheck env (goTrimSpace env.stackID) with
       | (.fail e, tr2) => (.failed e, .wrapRestore :: tr2)
       | (.skipExit, tr2) => (.skipped, .wrapRestore :: tr2)
       | (.proceed, tr2) =>
         ((extractPhase env uri).1,
          .wrapRestore :: (tr2 ++ (extractPhase env uri).2))) := by
  have hlen : 0 < (goTrimSpace env.stackID).length := strLenPos _ hcur
  simp only [afterAcquire, gt_iff_lt, hlen, if_true]

theorem afterAcquire_blank (env : Env) (uri : String)
    (hcur : goTrimSpace env.stackID = "") :
    afterAcquire env uri =
      ((extractPhase env uri).1, .wrapRestore :: (extractPhase env uri).2) := by
  simp [afterAcquire, hcur, String.length]

theorem acq_not_mem {env : Env} {uri : String} {tr0 : List Ev}
    (hacq : acquire env = (.ok uri, tr0)) {e : Ev} (hne : isAcqEv e = false) :
    e ∉ tr0 := by
  intro hmem
  have := acquire_events env e (by rw [hacq]; exact hmem)
  rw [this] at hne
  exact Bool.true_eq_false.mp hne

/-- The events the extraction phase can produce. -/
def isExtEv : Ev → Bool
  | .extractStream => true
  | .fallback => true
  | .uncompressFile _ => true
  | .request .fallbackDownload _ _ => true
  | .closeBody .fallbackDownload => true
  | .createFile _ => true
  | _ => false

theorem isFb_isExt {e : Ev} (h : isFbEv e = true) : isExtEv e = true := by
  cases e <;> try simp_all [isFbEv, isExtEv]
  case request k u t => cases k <;> simp_all [isFbEv, isExtEv]
  case closeBody k => cases k <;> simp_all [isFbEv, isExtEv]

theorem extract_events (env : Env) (uri : String) :
    ∀ e ∈ (extractPhase env uri).2, isExtEv e = true := by
  intro e he
  rcases hx : env.extractErr with _ | e0
  · simp [extractPhase, hx] at he
    simp [he, isExtEv]
  · rcases hdl : downloadCacheArchive env uri with ⟨r, trd⟩
    rcases r with ee | p
    · simp [extractPhase, hx, hdl] at he
      rcases he with he | he | he
      · simp [he, isExtEv]
      · simp [he, isExtEv]
      · exact isFb_isExt (dl_events env uri e (by rw [hdl]; exact he))
    · rcases hu : env.uncompressErr p with _ | e3 <;>
        simp [extractPhase, hx, hdl, hu] at he <;>
        rcases he with he | he | he | he
      · simp [he, isExtEv]
      · simp [he, isExtEv]
      · exact isFb_isExt (dl_events env uri e (by rw [hdl]; exact he))
      · simp [he, isExtEv]
      · simp [he, isExtEv]
      · simp [he, isExtEv]
      · exact isFb_isExt (dl_events env uri e (by rw [hdl]; exact he))
      · simp [he, isExtEv]

theorem ext_not_mem {env : Env} {uri : String} {e : Ev}
    (hne : isExtEv e = false) : e ∉ (extractPhase env uri).2 := by
  intro hmem
  have := extract_events env uri e hmem
  rw [this] at hne
  exact Bool.true_eq_false.mp hne

/-! ### Claim C1 -/

/-- Claim C1 states that, when a compatibility tag is configured, the
restorable reader's Restore is invoked only after the first entry's payload
has been fully read and the compatibility decision has been made.  This
concrete run (local archive, matching stack ids, everything succeeding)
computes to a trace in which Restore (index 3) happens strictly before the
payload read (index 4) and before the comparison (index 5), refuting the
claim. -/
theorem c1_counterexample :
    mainRun envC1 =
      (.ok,
       [.openLocal "/a.tar", .wrapRestore, .readFirstEntry, .restore,
        .readPayload, .compare "osx" "osx", .extractStream]) ∧
    (mainRun envC1).2.findIdx (fun x => decide (x = Ev.restore)) = 3 ∧
    (mainRun envC1).2.findIdx (fun x => decide (x = Ev.readPayload)) = 4 ∧
    (mainRun envC1).2.findIdx (fun x => decide (x = Ev.compare "osx" "osx")) = 5 := by
  exact ⟨by decide, by decide, by decide, by decide⟩

/-- Claim C1 (amended): in every run with a configured compatibility tag in
which the first archive entry was decoded, Restore is invoked exactly once,
directly after the first entry's header was decoded and before the entry's
payload is read, before the compatibility comparison and before any
extraction of the restored stream. -/
theorem c1_restore_order (env : Env) (uri : String) (tr0 : List Ev)
    (fe : FirstEntry)
    (hapi : env.cacheAPIURL ≠ "")
    (hacq : acquire env = (.ok uri, tr0))
    (hcur : goTrimSpace env.stackID ≠ "")
    (hfe : env.firstEntry = .ok fe) :
    ∃ l2, (mainRun env).2 = (tr0 ++ [.wrapRestore, .readFirstEntry]) ++ .restore :: l2 ∧
      Ev.restore ∉ tr0 ∧ Ev.readPayload ∉ tr0 ∧ Ev.extractStream ∉ tr0 ∧
      (∀ a c, Ev.compare a c ∉ tr0) ∧ Ev.restore ∉ l2 := by
  have hmain := mainRun_acq_ok env uri tr0 hapi hacq
  have hpos := afterAcquire_pos env uri hcur
  have hnr : Ev.restore ∉ tr0 := acq_not_mem hacq rfl
  have hnp : Ev.readPayload ∉ tr0 := acq_not_mem hacq rfl
  have hnx : Ev.extractStream ∉ tr0 := acq_not_mem hacq rfl
  have hnc : ∀ a c, Ev.compare a c ∉ tr0 := fun a c => acq_not_mem hacq rfl
  have hre : Ev.restore ∉ (extractPhase env uri).2 := ext_not_mem rfl
  by_cases hname : goBase fe.name = "archive_info.json"
  · by_cases hread : fe.readOk
    · rcases hps : parseStackID fe.payload with e | aid
      · have hchk : stackCheck env (goTrimSpace env.stackID) =
            (.fail ("Failed to parse first archive entry: " ++ e),
             [.readFirstEntry, .restore, .readPayload]) := by
          simp [stackCheck, hfe, hname, hread, hps]
        refine ⟨[.readPayload], ?_, hnr, hnp, hnx, hnc, by simp⟩
        rw [hmain, hpos, hchk]
        simp
      · by_cases hmz : aid = goTrimSpace env.stackID
        · have hchk : stackCheck env (goTrimSpace env.stackID) =
              (.proceed,
               [.readFirstEntry, .restore, .readPayload,
                .compare aid (goTrimSpace env.stackID)]) := by
            simp [stackCheck, hfe, hname, hread, hps, hmz]
          refine ⟨[.readPayload, .compare aid (goTrimSpace env.stackID)] ++
              (extractPhase env uri).2, ?_, hnr, hnp, hnx, hnc, ?_⟩
          · rw [hmain, hpos, hchk]
            simp
          · intro hmem
            rw [List.mem_append] at hmem
            rcases hmem with h | h
            · simp at h
            · exact hre h
        · have hchk : stackCheck env (goTrimSpace env.stackID) =
              (.skipExit,
               [.readFirstEntry, .restore, .readPayload,
                .compare aid (goTrimSpace env.stackID), .warnStackMismatch]) := by
            simp [stackCheck, hfe, hname, hread, hps, hmz]
          refine ⟨[.readPayload, .compare aid (goTrimSpace env.stackID),
              .warnStackMismatch], ?_, hnr, hnp, hnx, hnc, by simp⟩
          rw [hmain, hpos, hchk]
          simp
    · have hchk : stackCheck env (goTrimSpace env.stackID) =
          (.fail "Failed to read first archive entry",
           [.readFirstEntry, .restore, .readPayload]) := by
        simp [stackCheck, hfe, hname, hread]
      refine ⟨[.readPayload], ?_, hnr, hnp, hnx, hnc, by simp⟩
      rw [hmain, hpos, hchk]
      simp
  · have hchk : stackCheck env (goTrimSpace env.stackID) =
        (.proceed, [.readFirstEntry, .restore, .warnNoStackInfo]) := by
      simp [stackCheck, hfe, hname]
    refine ⟨[.warnNoStackInfo] ++ (extractPhase env uri).2, ?_, hnr, hnp, hnx, hnc, ?_⟩
    · rw [hmain, hpos, hchk]
      simp
    · intro hmem
      rw [List.mem_append] at hmem
      rcases hmem with h | h
      · simp at h
      · exact hre h

/-- Witness instantiating c1_restore_order on a concrete run. -/
theorem c1_restore_order_witness :
    ∃ l2, (mainRun envC7).2 =
        ([Ev.openLocal "/e.tar"] ++ [.wrapRestore, .readFirstEntry]) ++ .restore :: l2 ∧
      Ev.restore ∉ [Ev.openLocal "/e.tar"] ∧
      Ev.readPayload ∉ [Ev.openLocal "/e.tar"] ∧
      Ev.extractStream ∉ [Ev.openLocal "/e.tar"] ∧
      (∀ a c, Ev.compare a c ∉ [Ev.openLocal "/e.tar"]) ∧ Ev.restore ∉ l2 :=
  c1_restore_order envC7 "file:///e.tar" [Ev.openLocal "/e.tar"]
    { name := "bundle/archive_info.json", payload := "\x7b\"stack_id\":\"s1\"\x7d", readOk := true }
    (by decide) rfl (by decide) rfl

theorem extract_head (env : Env) (uri : String) :
    Ev.extractStream ∈ (extractPhase env uri).2 := by
  rcases hx : env.extractErr with _ | e0
  · simp [extractPhase, hx]
  · rcases hdl : downloadCacheArchive env uri with ⟨r, trd⟩
    rcases r with ee | p
    · simp [extractPhase, hx, hdl]
    · rcases hu : env.uncompressErr p with _ | e3 <;> simp [extractPhase, hx, hdl, hu]

theorem mem_mainRun_pos (env : Env) (uri : String) (tr0 : List Ev) (e : Ev)
    (hapi : env.cacheAPIURL ≠ "")
    (hacq : acquire env = (.ok uri, tr0))
    (hcur : goTrimSpace env.stackID ≠ "") :
    e ∈ (mainRun env).2 ↔
      e ∈ tr0 ∨ e = Ev.wrapRestore ∨
      e ∈ (stackCheck env (goTrimSpace env.stackID)).2 ∨
      ((stackCheck env (goTrimSpace env.stackID)).1 = .proceed ∧
        e ∈ (extractPhase env uri).2) := by
  rw [mainRun_acq_ok env uri tr0 hapi hacq, afterAcquire_pos env uri hcur]
  rcases hchk : stackCheck env (goTrimSpace env.stackID) with ⟨r, tr2⟩
  rcases r with _ | _ | msg <;> simp [hchk]

theorem mem_mainRun_blank (env : Env) (uri : String) (tr0 : List Ev) (e : Ev)
    (hapi : env.cacheAPIURL ≠ "")
    (hacq : acquire env = (.ok uri, tr0))
    (hblank : goTrimSpace env.stackID = "") :
    e ∈ (mainRun env).2 ↔
      e ∈ tr0 ∨ e = Ev.wrapRestore ∨ e ∈ (extractPhase env uri).2 := by
  rw [mainRun_acq_ok env uri tr0 hapi hacq, afterAcquire_blank env uri hblank]
  simp

/-! ### Claim C3 -/

/-- Claim C3: when a compatibility tag is configured and the archive's
stored stack id differs from it, the run ends with the successful skip
outcome (exit code 0), a mismatch warning is emitted and nothing is
extracted: neither the streaming extractor nor the fallback path runs. -/
theorem c3_mismatch_success (env : Env) (uri : String) (tr0 : List Ev)
    (fe : FirstEntry) (aid : String)
    (hapi : env.cacheAPIURL ≠ "")
    (hacq : acquire env = (.ok uri, tr0))
    (hcur : goTrimSpace env.stackID ≠ "")
    (hfe : env.firstEntry = .ok fe)
    (hname : goBase fe.name = "archive_info.json")
    (hread : fe.readOk = true)
    (hps : parseStackID fe.payload = .ok aid)
    (hne : aid ≠ goTrimSpace env.stackID) :
    (mainRun env).1 = .skipped ∧ exitCode (mainRun env).1 = 0 ∧
    Ev.warnStackMismatch ∈ (mainRun env).2 ∧
    Ev.extractStream ∉ (mainRun env).2 ∧ Ev.fallback ∉ (mainRun env).2 ∧
    (∀ p, Ev.uncompressFile p ∉ (mainRun env).2) := by
  have hchk : stackCheck env (goTrimSpace env.stackID) =
      (.skipExit,
       [.readFirstEntry, .restore, .readPayload,
        .compare aid (goTrimSpace env.stackID), .warnStackMismatch]) := by
    simp [stackCheck, hfe, hname, hread, hps, hne]
  have hmem := fun e => mem_mainRun_pos env uri tr0 e hapi hacq hcur
  have hout : mainRun env =
      (.skipped, tr0 ++ .wrapRestore ::
        [.readFirstEntry, .restore, .readPayload,
         .compare aid (goTrimSpace env.stackID), .warnStackMismatch]) := by
    rw [mainRun_acq_ok env uri tr0 hapi hacq, afterAcquire_pos env uri hcur, hchk]
  refine ⟨by rw [hout], by rw [hout]; rfl, ?_, ?_, ?_, ?_⟩
  · rw [hmem Ev.warnStackMismatch, hchk]
    simp
  · rw [hmem Ev.extractStream, hchk]
    simp only [not_or]
    refine ⟨acq_not_mem hacq rfl, by simp, by simp, ?_⟩
    rintro ⟨h1, _⟩
    simp at h1
  · rw [hmem Ev.fallback, hchk]
    simp only [not_or]
    refine ⟨acq_not_mem hacq rfl, by simp, by simp, ?_⟩
    rintro ⟨h1, _⟩
    simp at h1
  · intro p
    rw [hmem (Ev.uncompressFile p), hchk]
    simp only [not_or]
    refine ⟨acq_not_mem hacq rfl, by simp, by simp, ?_⟩
    rintro ⟨h1, _⟩
    simp at h1

/-- Witness instantiating c3_mismatch_success on a concrete run with
stack ids "linux-docker" (archive) and "osx-xcode" (configured). -/
theorem c3_mismatch_success_witness :
    (mainRun envC3).1 = .skipped ∧ exitCode (mainRun envC3).1 = 0 ∧
    Ev.warnStackMismatch ∈ (mainRun envC3).2 ∧
    Ev.extractStream ∉ (mainRun envC3).2 ∧ Ev.fallback ∉ (mainRun envC3).2 ∧
    (∀ p, Ev.uncompressFile p ∉ (mainRun envC3).2) :=
  c3_mismatch_success envC3 "file:///b.tar" [Ev.openLocal "/b.tar"]
    { name := "archive_info.json", payload := "\x7b\"stack_id\":\"linux-docker\"\x7d", readOk := true }
    "linux-docker" (by decide) rfl (by decide) rfl (by decide) rfl rfl (by decide)

/-! ### Claim C10 -/

/-- Claim C10: the configured stack id is trimmed of surrounding white
space before use while the archive's stack id is compared untrimmed, with
exact case-sensitive equality: the comparison event always carries the
parsed archive id verbatim against the trimmed configured id, and any
inequality (including one caused only by surrounding white space or letter
case in the archive id) ends the run as a successful skip with nothing
extracted. -/
theorem c10_trim_asymmetry (env : Env) (uri : String) (tr0 : List Ev)
    (fe : FirstEntry) (aid : String)
    (hapi : env.cacheAPIURL ≠ "")
    (hacq : acquire env = (.ok uri, tr0))
    (hcur : goTrimSpace env.stackID ≠ "")
    (hfe : env.firstEntry = .ok fe)
    (hname : goBase fe.name = "archive_info.json")
    (hread : fe.readOk = true)
    (hps : parseStackID fe.payload = .ok aid) :
    Ev.compare aid (goTrimSpace env.stackID) ∈ (mainRun env).2 ∧
    (aid ≠ goTrimSpace env.stackID →
      (mainRun env).1 = .skipped ∧ Ev.extractStream ∉ (mainRun env).2) := by
  have hmem := fun e => mem_mainRun_pos env uri tr0 e hapi hacq hcur
  by_cases hmz : aid = goTrimSpace env.stackID
  · have hchk : stackCheck env (goTrimSpace env.stackID) =
        (.proceed,
         [.readFirstEntry, .restore, .readPayload,
          .compare aid (goTrimSpace env.stackID)]) := by
      simp [stackCheck, hfe, hname, hread, hps, hmz]
    refine ⟨?_, fun hne => absurd hmz hne⟩
    rw [hmem _, hchk]
    simp
  · have hchk : stackCheck env (goTrimSpace env.stackID) =
        (.skipExit,
         [.readFirstEntry, .restore, .readPayload,
          .compare aid (goTrimSpace env.stackID), .warnStackMismatch]) := by
      simp [stackCheck, hfe, hname, hread, hps, hmz]
    refine ⟨?_, fun _ => ⟨?_, ?_⟩⟩
    · rw [hmem _, hchk]
      simp
    · rw [mainRun_acq_ok env uri tr0 hapi hacq, afterAcquire_pos env uri hcur, hchk]
    · rw [hmem Ev.extractStream, hchk]
      simp only [not_or]
      refine ⟨acq_not_mem hacq rfl, by simp, by simp, ?_⟩
      rintro ⟨h1, _⟩
      simp at h1

/-- Witness instantiating c10_trim_asymmetry: configured id " osx " is
trimmed to "osx", the archive id "osx " keeps its trailing space, and the
run skips. -/
theorem c10_trim_asymmetry_witness :
    Ev.compare "osx " (goTrimSpace envC10.stackID) ∈ (mainRun envC10).2 ∧
    (mainRun envC10).1 = .skipped ∧ Ev.extractStream ∉ (mainRun envC10).2 := by
  have h := c10_trim_asymmetry envC10 "file:///g.tar" [Ev.openLocal "/g.tar"]
    { name := "archive_info.json", payload := "\x7b\"stack_id\":\"osx \"\x7d", readOk := true }
    "osx " (by decide) rfl (by decide) rfl (by decide) rfl rfl
  exact ⟨h.1, (h.2 (by decide)).1, (h.2 (by decide)).2⟩

/-! ### Claim C6 -/

theorem acq_not_mem_any {env : Env} {r : Except String String} {tr0 : List Ev}
    (hacq : acquire env = (r, tr0)) {e : Ev} (hne : isAcqEv e = false) :
    e ∉ tr0 := by
  intro hmem
  have := acquire_events env e (by rw [hacq]; exact hmem)
  rw [this] at hne
  exact Bool.true_eq_false.mp hne

/-- Claim C6: when the configured stack id trims to the empty string the
compatibility check is skipped entirely: on no code path is the first
archive entry inspected, the reader restored, a payload read or a
comparison made; and whenever the stream was acquired, extraction
proceeds. -/
theorem c6_blank_skip (env : Env)
    (hblank : goTrimSpace env.stackID = "") :
    Ev.readFirstEntry ∉ (mainRun env).2 ∧ Ev.restore ∉ (mainRun env).2 ∧
    Ev.readPayload ∉ (mainRun env).2 ∧
    (∀ a c, Ev.compare a c ∉ (mainRun env).2) ∧
    (∀ uri tr0, env.cacheAPIURL ≠ "" → acquire env = (.ok uri, tr0) →
      Ev.extractStream ∈ (mainRun env).2) := by
  by_cases hapi : env.cacheAPIURL = ""
  · have hm : mainRun env = (.ok, []) := by simp [mainRun, hapi]
    rw [hm]
    exact ⟨by simp, by simp, by simp, fun a c => by simp,
      fun uri tr0 hne _ => absurd hapi hne⟩
  · rcases hacq2 : acquire env with ⟨r, tr0⟩
    rcases r with e0 | uri
    · have hm : mainRun env = (.failed e0, tr0) := by simp [mainRun, hapi, hacq2]
      rw [hm]
      refine ⟨acq_not_mem_any hacq2 rfl, acq_not_mem_any hacq2 rfl,
        acq_not_mem_any hacq2 rfl, fun a c => acq_not_mem_any hacq2 rfl, ?_⟩
      intro uri tr0b hne2 hacq3
      simp at hacq3
    · have hmem := fun e => mem_mainRun_blank env uri tr0 e hapi hacq2 hblank
      have hskip : ∀ (e : Ev), isAcqEv e = false → isExtEv e = false →
          e ≠ Ev.wrapRestore → e ∉ (mainRun env).2 := by
        intro e h1 h2 h3
        rw [hmem e]
        simp only [not_or]
        exact ⟨acq_not_mem_any hacq2 h1, h3, ext_not_mem h2⟩
      refine ⟨hskip _ rfl rfl (by simp), hskip _ rfl rfl (by simp),
        hskip _ rfl rfl (by simp), fun a c => hskip _ rfl rfl (by simp), ?_⟩
      intro uri2 tr0b hne hacq3
      rw [hmem Ev.extractStream]
      exact Or.inr (Or.inr (extract_head env uri))

/-- Witness instantiating c6_blank_skip on a run whose configured stack id
is white space only and whose archive's first entry cannot even be
decoded. -/
theorem c6_blank_skip_witness :
    Ev.readFirstEntry ∉ (mainRun envC6).2 ∧ Ev.restore ∉ (mainRun envC6).2 ∧
    Ev.readPayload ∉ (mainRun envC6).2 ∧
    (∀ a c, Ev.compare a c ∉ (mainRun envC6).2) ∧
    Ev.extractStream ∈ (mainRun envC6).2 := by
  have h := c6_blank_skip envC6 (by decide)
  exact ⟨h.1, h.2.1, h.2.2.1, h.2.2.2.1,
    h.2.2.2.2 "file:///d.tar" [Ev.openLocal "/d.tar"] (by decide) rfl⟩

/-! ### Claim C4 -/

/-- Claim C4: with a compatibility tag configured, a failure to decode the
first entry's header, to read the metadata payload, or to parse its JSON is
fatal (exit code 1, nothing extracted), while a first entry that merely is
not named archive_info.json only produces a warning and extraction proceeds
unconditionally. -/
theorem c4_metadata_strictness (env : Env) (uri : String) (tr0 : List Ev)
    (hapi : env.cacheAPIURL ≠ "")
    (hacq : acquire env = (.ok uri, tr0))
    (hcur : goTrimSpace env.stackID ≠ "") :
    (∀ e, env.firstEntry = .error e →
       (mainRun env).1 = .failed ("Failed to get first archive entry: " ++ e) ∧
       exitCode (mainRun env).1 = 1 ∧ Ev.extractStream ∉ (mainRun env).2) ∧
    (∀ fe, env.firstEntry = .ok fe → goBase fe.name = "archive_info.json" →
       fe.readOk = false →
       (mainRun env).1 = .failed "Failed to read first archive entry" ∧
       exitCode (mainRun env).1 = 1 ∧ Ev.extractStream ∉ (mainRun env).2) ∧
    (∀ fe e, env.firstEntry = .ok fe → goBase fe.name = "archive_info.json" →
       fe.readOk = true → parseStackID fe.payload = .error e →
       (mainRun env).1 = .failed ("Failed to parse first archive entry: " ++ e) ∧
       exitCode (mainRun env).1 = 1 ∧ Ev.extractStream ∉ (mainRun env).2) ∧
    (∀ fe, env.firstEntry = .ok fe → goBase fe.name ≠ "archive_info.json" →
       Ev.warnNoStackInfo ∈ (mainRun env).2 ∧
       Ev.extractStream ∈ (mainRun env).2 ∧
       Ev.readPayload ∉ (mainRun env).2) := by
  have hmem := fun e => mem_mainRun_pos env uri tr0 e hapi hacq hcur
  refine ⟨?_, ?_, ?_, ?_⟩
  · intro e hfe
    have hchk : stackCheck env (goTrimSpace env.stackID) =
        (.fail ("Failed to get first archive entry: " ++ e), [.readFirstEntry]) := by
      simp [stackCheck, hfe]
    have hout : (mainRun env).1 = .failed ("Failed to get first archive entry: " ++ e) := by
      rw [mainRun_acq_ok env uri tr0 hapi hacq, afterAcquire_pos env uri hcur, hchk]
    refine ⟨hout, by rw [hout]; rfl, ?_⟩
    rw [hmem Ev.extractStream, hchk]
    simp only [not_or]
    refine ⟨acq_not_mem hacq rfl, by simp, by simp, ?_⟩
    rintro ⟨h1, _⟩
    simp at h1
  · intro fe hfe hname hread
    have hchk : stackCheck env (goTrimSpace env.stackID) =
        (.fail "Failed to read first archive entry",
         [.readFirstEntry, .restore, .readPayload]) := by
      simp [stackCheck, hfe, hname, hread]
    have hout : (mainRun env).1 = .failed "Failed to read first archive entry" := by
      rw [mainRun_acq_ok env uri tr0 hapi hacq, afterAcquire_pos env uri hcur, hchk]
    refine ⟨hout, by rw [hout]; rfl, ?_⟩
    rw [hmem Ev.extractStream, hchk]
    simp only [not_or]
    refine ⟨acq_not_mem hacq rfl, by simp, by simp, ?_⟩
    rintro ⟨h1, _⟩
    simp at h1
  · intro fe e hfe hname hread hps
    have hchk : stackCheck env (goTrimSpace env.stackID) =
        (.fail ("Failed to parse first archive entry: " ++ e),
         [.readFirstEntry, .restore, .readPayload]) := by
      simp [stackCheck, hfe, hname, hread, hps]
    have hout : (mainRun env).1 = .failed ("Failed to parse first archive entry: " ++ e) := by
      rw [mainRun_acq_ok env uri tr0 hapi hacq, afterAcquire_pos env uri hcur, hchk]
    refine ⟨hout, by rw [hout]; rfl, ?_⟩
    rw [hmem Ev.extractStream, hchk]
    simp only [not_or]
    refine ⟨acq_not_mem hacq rfl, by simp, by simp, ?_⟩
    rintro ⟨h1, _⟩
    simp at h1
  · intro fe hfe hname
    have hchk : stackCheck env (goTrimSpace env.stackID) =
        (.proceed, [.readFirstEntry, .restore, .warnNoStackInfo]) := by
      simp [stackCheck, hfe, hname]
    refine ⟨?_, ?_, ?_⟩
    · rw [hmem Ev.warnNoStackInfo, hchk]
      simp
    · rw [hmem Ev.extractStream, hchk]
      exact Or.inr (Or.inr (Or.inr ⟨rfl, extract_head env uri⟩))
    · rw [hmem Ev.readPayload, hchk]
      simp only [not_or]
      refine ⟨acq_not_mem hacq rfl, by simp, by simp, ?_⟩
      rintro ⟨_, h2⟩
      exact absurd (extract_events env uri Ev.readPayload h2) (by simp [isExtEv])

/-- Witness instantiating c4_metadata_strictness: a corrupt first header is
fatal with exit code 1 and nothing extracted. -/
theorem c4_metadata_strictness_witness :
    (mainRun envC4).1 = .failed "Failed to get first archive entry: bad header" ∧
    exitCode (mainRun envC4).1 = 1 ∧ Ev.extractStream ∉ (mainRun envC4).2 :=
  (c4_metadata_strictness envC4 "file:///f.tar" [Ev.openLocal "/f.tar"]
    (by decide) rfl (by decide)).1 "bad header" rfl

/-! ### Claim C7 -/

theorem takeWhile_stop (p : Char → Bool) (xs ys : List Char) (y : Char)
    (hx : ∀ x ∈ xs, p x = true) (hy : p y = false) :
    (xs ++ y :: ys).takeWhile p = xs := by
  induction xs with
  | nil => simp [List.takeWhile_cons, hy]
  | cons a t ih =>
    have ha : p a = true := hx a (by simp)
    simp only [List.cons_append, List.takeWhile_cons, ha, if_true]
    rw [ih (fun x hx2 => hx x (by simp [hx2]))]

/-- For an entry name of the form directory ++ "/" ++ plain file name
(the file name non-empty and slash-free), goBase returns the file name:
the directory part cannot influence the metadata-name match. -/
theorem goBase_prefix_free (d n : String) (hn : n.data ≠ [])
    (hall : ∀ c ∈ n.data, c ≠ '/') :
    goBase (d ++ "/" ++ n) = n := by
  have hdata : (d ++ "/" ++ n).data = d.data ++ '/' :: n.data := by
    rw [String.data_append, String.data_append]
    simp
  rcases hrev : n.data.reverse with _ | ⟨c0, t⟩
  · exact absurd (by simpa using congrArg List.reverse hrev) hn
  have hc0 : c0 ≠ '/' := by
    have : c0 ∈ n.data := by
      rw [← List.mem_reverse, hrev]
      simp
    exact hall c0 this
  have hxrev : (d ++ "/" ++ n).data.reverse = c0 :: (t ++ '/' :: d.data.reverse) := by
    rw [hdata, List.reverse_append, List.reverse_cons, hrev]
    simp
  unfold goBase
  rw [if_neg (by rw [hdata]; simp)]
  rw [hxrev]
  rw [List.dropWhile_cons]
  simp only [hc0, decide_eq_true_eq, if_false, decide_False]
  rw [if_neg (by simp), if_neg (by simp)]
  have hstops : ((c0 :: t) ++ '/' :: d.data.reverse).takeWhile
      (fun c => decide (c ≠ '/')) = c0 :: t := by
    refine takeWhile_stop _ _ _ _ ?_ (by simp)
    intro x hxm
    have : x ∈ n.data := by
      rw [← List.mem_reverse, hrev]
      exact hxm
    simp [hall x this]
  rw [show c0 :: (t ++ '/' :: d.data.reverse) = (c0 :: t) ++ '/' :: d.data.reverse
    from by simp]
  rw [hstops, ← hrev, List.reverse_reverse]

/-- Claim C7: the compatibility tag is looked for (the first entry's
payload read) exactly when the final path segment of the first entry's
name, computed by filepath.Base, equals archive_info.json; and for names
consisting of a directory prefix, a slash, and a plain file name, the
prefix is ignored by that match. -/
theorem c7_name_match (env : Env) (uri : String) (tr0 : List Ev)
    (fe : FirstEntry)
    (hapi : env.cacheAPIURL ≠ "")
    (hacq : acquire env = (.ok uri, tr0))
    (hcur : goTrimSpace env.stackID ≠ "")
    (hfe : env.firstEntry = .ok fe) :
    (Ev.readPayload ∈ (mainRun env).2 ↔ goBase fe.name = "archive_info.json") ∧
    (∀ d n : String, n.data ≠ [] → (∀ c ∈ n.data, c ≠ '/') →
       (goBase (d ++ "/" ++ n) = "archive_info.json" ↔ n = "archive_info.json")) := by
  have hmem := fun e => mem_mainRun_pos env uri tr0 e hapi hacq hcur
  constructor
  · constructor
    · intro hmemp
      by_contra hname
      have hchk : stackCheck env (goTrimSpace env.stackID) =
          (.proceed, [.readFirstEntry, .restore, .warnNoStackInfo]) := by
        simp [stackCheck, hfe, hname]
      rw [hmem Ev.readPayload, hchk] at hmemp
      rcases hmemp with h | h | h | ⟨_, h⟩
      · exact acq_not_mem (e := Ev.readPayload) hacq rfl h
      · simp at h
      · simp at h
      · exact absurd (extract_events env uri _ h) (by simp [isExtEv])
    · intro hname
      rw [hmem Ev.readPayload]
      by_cases hread : fe.readOk
      · rcases hps : parseStackID fe.payload with e | aid
        · have hchk : stackCheck env (goTrimSpace env.stackID) =
              (.fail ("Failed to parse first archive entry: " ++ e),
               [.readFirstEntry, .restore, .readPayload]) := by
            simp [stackCheck, hfe, hname, hread, hps]
          rw [hchk]
          simp
        · by_cases hmz : aid = goTrimSpace env.stackID
          · have hchk : stackCheck env (goTrimSpace env.stackID) =
                (.proceed,
                 [.readFirstEntry, .restore, .readPayload,
                  .compare aid (goTrimSpace env.stackID)]) := by
              simp [stackCheck, hfe, hname, hread, hps, hmz]
            rw [hchk]
            simp
          · have hchk : stackCheck env (goTrimSpace env.stackID) =
                (.skipExit,
                 [.readFirstEntry, .restore, .readPayload,
                  .compare aid (goTrimSpace env.stackID), .warnStackMismatch]) := by
              simp [stackCheck, hfe, hname, hread, hps, hmz]
            rw [hchk]
            simp
      · have hchk : stackCheck env (goTrimSpace env.stackID) =
            (.fail "Failed to read first archive entry",
             [.readFirstEntry, .restore, .readPayload]) := by
          simp [stackCheck, hfe, hname, hread]
        rw [hchk]
        simp
  · intro d n hn hall
    rw [goBase_prefix_free d n hn hall]

/-- Witness instantiating c7_name_match: the entry name
bundle/archive_info.json matches through its final path segment. -/
theorem c7_name_match_witness :
    (Ev.readPayload ∈ (mainRun envC7).2 ↔
      goBase "bundle/archive_info.json" = "archive_info.json") ∧
    (goBase ("bundle" ++ "/" ++ "archive_info.json") = "archive_info.json" ↔
      ("archive_info.json" : String) = "archive_info.json") := by
  have h := c7_name_match envC7 "file:///e.tar" [Ev.openLocal "/e.tar"]
    { name := "bundle/archive_info.json", payload := "\x7b\"stack_id\":\"s1\"\x7d", readOk := true }
    (by decide) rfl (by decide) rfl
  exact ⟨h.1, h.2 "bundle" "archive_info.json" (by decide) (by decide)⟩

/-! ### Claim C9 -/

/-- The timeout discipline as a per-event predicate: a request carries the
20 second timeout exactly when it is the download-URL lookup; every other
request is performed with no timeout. -/
def timeoutPolicyB : Ev → Bool
  | .request k _ t =>
    (match k, t with
     | .urlLookup, some 20 => true
     | .urlLookup, _ => false
     | _, none => true
     | _, _ => false)
  | _ => true

theorem chk_policy (env : Env) (cur : String) :
    ((stackCheck env cur).2.all timeoutPolicyB) = true := by
  rcases hfe : env.firstEntry with e | fe
  · simp [stackCheck, hfe, timeoutPolicyB]
  · by_cases hname : goBase fe.name = "archive_info.json"
    · by_cases hread : fe.readOk
      · rcases hps : parseStackID fe.payload with e | aid
        · simp [stackCheck, hfe, hname, hread, hps, timeoutPolicyB]
        · by_cases hmz : aid = cur <;>
            simp [stackCheck, hfe, hname, hread, hps, hmz, timeoutPolicyB]
      · simp [stackCheck, hfe, hname, hread, timeoutPolicyB]
    · simp [stackCheck, hfe, hname, timeoutPolicyB]

theorem dl_policy (env : Env) (u : String) :
    ((downloadCacheArchive env u).2.all timeoutPolicyB) = true := by
  by_cases hp : hasPre u "file://"
  · simp [downloadCacheArchive, hp]
  · rcases hg : env.get u with e1 | resp
    · simp [downloadCacheArchive, hp, hg, timeoutPolicyB]
    · by_cases hs : resp.status = 200
      · by_cases hc : env.createOk cacheArchivePath
        · by_cases hcp : env.copyOk <;>
            simp [downloadCacheArchive, hp, hg, hs, hc, hcp, timeoutPolicyB]
        · by_cases hb : resp.bodyReadOk <;>
            simp [downloadCacheArchive, hp, hg, hs, hc, hb, timeoutPolicyB]
      · by_cases hb : resp.bodyReadOk <;>
          simp [downloadCacheArchive, hp, hg, hs, hb, timeoutPolicyB]

theorem ext_policy (env : Env) (uri : String) :
    ((extractPhase env uri).2.all timeoutPolicyB) = true := by
  rcases hx : env.extractErr with _ | e0
  · simp [extractPhase, hx, timeoutPolicyB]
  · rcases hdl : downloadCacheArchive env uri with ⟨r, trd⟩
    have hd := dl_policy env uri
    rw [hdl] at hd
    simp only at hd
    rcases r with ee | p
    · simp [extractPhase, hx, hdl, timeoutPolicyB, hd]
    · rcases hu : env.uncompressErr p with _ | e3 <;>
        simp [extractPhase, hx, hdl, hu, List.all_append, timeoutPolicyB, hd]

theorem acquire_policy (env : Env) :
    ((acquire env).2.all timeoutPolicyB) = true := by
  rw [List.all_eq_true]
  intro e he
  by_cases hp : hasPre env.cacheAPIURL "file://"
  · by_cases ho : env.openOk (dropPre env.cacheAPIURL "file://") <;>
      simp [acquire, hp, ho] at he <;> simp [he, timeoutPolicyB]
  · rcases hg : getCacheDownloadURL env env.cacheAPIURL with ⟨r, tr⟩
    have htr := getC_trace env env.cacheAPIURL
    rw [hg] at htr
    simp only at htr
    rcases r with eg | durl
    · simp [acquire, hp, hg] at he
      rcases htr with h | h | h <;> subst h <;> simp at he
      · simp [he, timeoutPolicyB]
      · rcases he with he | he <;> simp [he, timeoutPolicyB]
    · rcases hq : performRequest env durl with ⟨r2, tr2⟩
      have htr2 := perform_trace env durl
      rw [hq] at htr2
      simp only at htr2
      rcases r2 with e2 | u2 <;> simp [acquire, hp, hg, hq] at he <;>
        rcases he with he | he
      · rcases htr with h | h | h <;> subst h <;> simp at he
        · simp [he, timeoutPolicyB]
        · rcases he with he | he <;> simp [he, timeoutPolicyB]
      · rcases htr2 with h | h <;> subst h <;> simp at he
        · simp [he, timeoutPolicyB]
        · rcases he with he | he <;> simp [he, timeoutPolicyB]
      · rcases htr with h | h | h <;> subst h <;> simp at he
        · simp [he, timeoutPolicyB]
        · rcases he with he | he <;> simp [he, timeoutPolicyB]
      · rcases htr2 with h | h <;> subst h <;> simp at he
        · simp [he, timeoutPolicyB]
        · rcases he with he | he <;> simp [he, timeoutPolicyB]

theorem afterAcquire_policy (env : Env) (uri : String) :
    ((afterAcquire env uri).2.all timeoutPolicyB) = true := by
  have hext := ext_policy env uri
  by_cases hb : goTrimSpace env.stackID = ""
  · rw [afterAcquire_blank env uri hb]
    simp [timeoutPolicyB, hext]
  · rw [afterAcquire_pos env uri hb]
    have hchkp := chk_policy env (goTrimSpace env.stackID)
    rcases hchk : stackCheck env (goTrimSpace env.stackID) with ⟨cr, tr2⟩
    rw [hchk] at hchkp
    simp only at hchkp
    rcases cr with _ | _ | msg <;>
      simp [List.all_append, timeoutPolicyB, hchkp, hext]

/-- Claim C9: in every run, every HTTP request event of the trace obeys the
timeout discipline: the download-URL lookup request carries the 20 second
timeout, and the archive body transfers (streaming download and fallback
re-download) are performed with no timeout. -/
theorem c9_timeout_scope (env : Env) :
    ((mainRun env).2.all timeoutPolicyB) = true := by
  by_cases hapi : env.cacheAPIURL = ""
  · simp [mainRun, hapi]
  · rcases hacq2 : acquire env with ⟨r, tr0⟩
    have ha := acquire_policy env
    rw [hacq2] at ha
    simp only at ha
    rcases r with e0 | uri
    · have hm : mainRun env = (.failed e0, tr0) := by simp [mainRun, hapi, hacq2]
      rw [hm]
      exact ha
    · rw [mainRun_acq_ok env uri tr0 hapi hacq2]
      simp only [List.all_append, Bool.and_eq_true]
      exact ⟨ha, afterAcquire_policy env uri⟩

/-! ### Claim C2 -/

/-- The events the stack-check block can produce. -/
def isChkEv : Ev → Bool
  | .readFirstEntry => true
  | .restore => true
  | .readPayload => true
  | .warnNoStackInfo => true
  | .warnStackMismatch => true
  | .compare _ _ => true
  | _ => false

theorem chk_events (env : Env) (cur : String) :
    ∀ e ∈ (stackCheck env cur).2, isChkEv e = true := by
  intro e he
  rcases hfe : env.firstEntry with er | fe
  · simp [stackCheck, hfe] at he
    simp [he, isChkEv]
  · by_cases hname : goBase fe.name = "archive_info.json"
    · by_cases hread : fe.readOk
      · rcases hps : parseStackID fe.payload with er | aid
        · simp [stackCheck, hfe, hname, hread, hps] at he
          rcases he with he | he | he <;> simp [he, isChkEv]
        · by_cases hmz : aid = cur <;>
            simp [stackCheck, hfe, hname, hread, hps, hmz] at he
          · rcases he with he | he | he | he <;> simp [he, isChkEv]
          · rcases he with he | he | he | he | he <;> simp [he, isChkEv]
      · simp [stackCheck, hfe, hname, hread] at he
        rcases he with he | he | he <;> simp [he, isChkEv]
    · simp [stackCheck, hfe, hname] at he
      rcases he with he | he | he <;> simp [he, isChkEv]

theorem not_mem_of_all {p : Ev → Bool} {l : List Ev}
    (h : ∀ e ∈ l, p e = true) {e : Ev} (hne : p e = false) : e ∉ l := by
  intro hmem
  exact Bool.true_eq_false.mp ((h e hmem).symm.trans hne)

theorem countEv_cons (e a : Ev) (l : List Ev) :
    countEv e (a :: l) = (if a = e then 1 else 0) + countEv e l := by
  by_cases h : a = e <;> simp [countEv, List.filter_cons, h, Nat.add_comm]

theorem dl_req_mem (env : Env) (u : String) (hp : hasPre u "file://" = false) :
    Ev.request .fallbackDownload u none ∈ (downloadCacheArchive env u).2 := by
  rcases hg : env.get u with e1 | resp
  · simp [downloadCacheArchive, hp, hg]
  · by_cases hs : resp.status = 200
    · by_cases hc : env.createOk cacheArchivePath
      · by_cases hcp : env.copyOk <;>
          simp [downloadCacheArchive, hp, hg, hs, hc, hcp]
      · by_cases hb : resp.bodyReadOk <;>
          simp [downloadCacheArchive, hp, hg, hs, hc, hb]
    · by_cases hb : resp.bodyReadOk <;>
        simp [downloadCacheArchive, hp, hg, hs, hb]

/-- Claim C2: whenever the run reaches extraction and streaming extraction
fails, exactly one fallback attempt is made: the trace carries one fallback
entry and exactly one streaming-extraction attempt; a file:// source is
reused directly (the downloader returns the stripped path without emitting
any event, and no fallback-download request appears anywhere in the run),
while a remote source triggers a fresh full download request of the
resolved URL; a fallback download error is fatal and prevents any
file-based extraction attempt, and otherwise the file-based extractor runs
exactly once, its failure fatal and its success ending the run
successfully. -/
theorem c2_fallback (env : Env) (uri : String) (tr0 : List Ev) (e0 : String)
    (hapi : env.cacheAPIURL ≠ "")
    (hacq : acquire env = (.ok uri, tr0))
    (hpass : goTrimSpace env.stackID = "" ∨
      (stackCheck env (goTrimSpace env.stackID)).1 = .proceed)
    (hx : env.extractErr = some e0) :
    countEv Ev.fallback (mainRun env).2 = 1 ∧
    countEv Ev.extractStream (mainRun env).2 = 1 ∧
    (hasPre uri "file://" = true →
       downloadCacheArchive env uri = (.ok (dropPre uri "file://"), []) ∧
       (∀ k u2 t, Ev.request k u2 t ∈ (mainRun env).2 → k ≠ .fallbackDownload)) ∧
    (hasPre uri "file://" = false →
       Ev.request .fallbackDownload uri none ∈ (mainRun env).2) ∧
    (∀ e2, (downloadCacheArchive env uri).1 = .error e2 →
       (mainRun env).1 =
         .failed ("Fallback failed, unable to download cache archive: " ++ e2) ∧
       (∀ p, Ev.uncompressFile p ∉ (mainRun env).2)) ∧
    (∀ p, (downloadCacheArchive env uri).1 = .ok p →
       countEv (Ev.uncompressFile p) (mainRun env).2 = 1 ∧
       (env.uncompressErr p = none → (mainRun env).1 = .ok) ∧
       (∀ e3, env.uncompressErr p = some e3 →
          (mainRun env).1 =
            .failed ("Fallback failed, unable to uncompress cache archive file: " ++ e3))) := by
  obtain ⟨trmid, hmidchk, htr⟩ :
      ∃ trmid, (∀ e ∈ trmid, isChkEv e = true) ∧
        mainRun env = ((extractPhase env uri).1,
          tr0 ++ .wrapRestore :: (trmid ++ (extractPhase env uri).2)) := by
    rcases hpass with hb | hpr
    · refine ⟨[], by simp, ?_⟩
      rw [mainRun_acq_ok env uri tr0 hapi hacq, afterAcquire_blank env uri hb]
      simp
    · by_cases hb : goTrimSpace env.stackID = ""
      · refine ⟨[], by simp, ?_⟩
        rw [mainRun_acq_ok env uri tr0 hapi hacq, afterAcquire_blank env uri hb]
        simp
      · rcases hchk : stackCheck env (goTrimSpace env.stackID) with ⟨cr, tr2⟩
        rw [hchk] at hpr
        simp only at hpr
        subst hpr
        refine ⟨tr2, ?_, ?_⟩
        · intro e he
          exact chk_events env (goTrimSpace env.stackID) e (by rw [hchk]; exact he)
        · rw [mainRun_acq_ok env uri tr0 hapi hacq, afterAcquire_pos env uri hb, hchk]
  have hcount : ∀ e : Ev, isAcqEv e = false → isChkEv e = false →
      e ≠ Ev.wrapRestore →
      countEv e (mainRun env).2 = countEv e (extractPhase env uri).2 := by
    intro e h1 h2 h3
    rw [htr]
    simp only
    rw [countEv_append, countEv_cons, countEv_append,
      countEv_eq_zero (acq_not_mem hacq h1),
      countEv_eq_zero (not_mem_of_all hmidchk h2),
      if_neg (fun hh => h3 hh.symm)]
    simp
  rcases hdl : downloadCacheArchive env uri with ⟨fb, trFb⟩
  have hfbev : ∀ e ∈ trFb, isFbEv e = true := by
    intro e he
    exact dl_events env uri e (by rw [hdl]; exact he)
  have hout1 : (mainRun env).1 = (extractPhase env uri).1 := by rw [htr]
  rcases fb with e2 | p
  · -- fallback download fails
    have hext1 : (extractPhase env uri).1 =
        .failed ("Fallback failed, unable to download cache archive: " ++ e2) := by
      simp [extractPhase, hx, hdl]
    have hext2 : (extractPhase env uri).2 =
        .extractStream :: .fallback :: trFb := by
      simp [extractPhase, hx, hdl]
    refine ⟨?_, ?_, ?_, ?_, ?_, ?_⟩
    · rw [hcount Ev.fallback rfl rfl (by simp), hext2, countEv_cons, countEv_cons,
        countEv_eq_zero (not_mem_of_all hfbev (e := Ev.fallback) rfl)]
      simp
    · rw [hcount Ev.extractStream rfl rfl (by simp), hext2, countEv_cons, countEv_cons,
        countEv_eq_zero (not_mem_of_all hfbev (e := Ev.extractStream) rfl)]
      simp
    · intro hpfile
      have hfile : downloadCacheArchive env uri = (.ok (dropPre uri "file://"), []) := by
        simp [downloadCacheArchive, hpfile]
      rw [hdl] at hfile
      simp at hfile
    · intro hprem
      have hm := dl_req_mem env uri hprem
      rw [hdl] at hm
      simp only at hm
      rw [htr, hext2]
      simp only [List.mem_append, List.mem_cons]
      exact Or.inr (Or.inr (Or.inr (Or.inr (Or.inr hm))))
    · intro e3 hde
      simp only [Except.error.injEq] at hde
      subst hde
      refine ⟨by rw [hout1, hext1], ?_⟩
      intro p
      rw [htr, hext2]
      simp only [List.mem_append, List.mem_cons, not_or]
      exact ⟨acq_not_mem hacq rfl, by simp,
        not_mem_of_all hmidchk (e := Ev.uncompressFile p) rfl,
        by simp, by simp, not_mem_of_all hfbev (e := Ev.uncompressFile p) rfl⟩
    · intro p hdp
      simp at hdp
  · -- fallback download succeeds: p is the local archive path
    have hdp1 : ∀ o : Outcome, ∀ l : List Ev,
        (o, .extractStream :: .fallback :: (trFb ++ [Ev.uncompressFile p])) =
          (o, .extractStream :: .fallback :: (trFb ++ [Ev.uncompressFile p])) :=
      fun _ _ => rfl
    have hcnt : countEv (Ev.uncompressFile p)
        (.extractStream :: .fallback :: (trFb ++ [Ev.uncompressFile p]) : List Ev) = 1 := by
      rw [countEv_cons, countEv_cons, countEv_append,
        countEv_eq_zero (not_mem_of_all hfbev (e := Ev.uncompressFile p) rfl)]
      simp [countEv]
    have hfb1 : countEv Ev.fallback
        (.extractStream :: .fallback :: (trFb ++ [Ev.uncompressFile p]) : List Ev) = 1 := by
      rw [countEv_cons, countEv_cons, countEv_append,
        countEv_eq_zero (not_mem_of_all hfbev (e := Ev.fallback) rfl)]
      simp [countEv]
    have hxs1 : countEv Ev.extractStream
        (.extractStream :: .fallback :: (trFb ++ [Ev.uncompressFile p]) : List Ev) = 1 := by
      rw [countEv_cons, countEv_cons, countEv_append,
        countEv_eq_zero (not_mem_of_all hfbev (e := Ev.extractStream) rfl)]
      simp [countEv]
    have hext2 : (extractPhase env uri).2 =
        .extractStream :: .fallback :: (trFb ++ [Ev.uncompressFile p]) := by
      rcases hu : env.uncompressErr p with _ | e3 <;> simp [extractPhase, hx, hdl, hu]
    have hext1 : (extractPhase env uri).1 =
        (match env.uncompressErr p with
         | some e3 =>
           .failed ("Fallback failed, unable to uncompress cache archive file: " ++ e3)
         | none => Outcome.ok) := by
      rcases hu : env.uncompressErr p with _ | e3 <;> simp [extractPhase, hx, hdl, hu]
    refine ⟨?_, ?_, ?_, ?_, ?_, ?_⟩
    · rw [hcount Ev.fallback rfl rfl (by simp), hext2]
      exact hfb1
    · rw [hcount Ev.extractStream rfl rfl (by simp), hext2]
      exact hxs1
    · intro hpfile
      have hfile : downloadCacheArchive env uri = (.ok (dropPre uri "file://"), []) := by
        simp [downloadCacheArchive, hpfile]
      rw [hdl] at hfile
      simp only [Prod.mk.injEq, Except.ok.injEq] at hfile
      obtain ⟨hq1, hq2⟩ := hfile
      refine ⟨by rw [hq1, hq2], ?_⟩
      intro k u2 t hmem hk
      subst hk
      rw [htr, hext2, hq2] at hmem
      simp only [List.mem_append, List.mem_cons] at hmem
      rcases hmem with h | h | h | h | h | h
      · exact absurd (acquire_events env _ (by rw [hacq]; exact h)) (by simp [isAcqEv])
      · simp at h
      · exact absurd (hmidchk _ h) (by simp [isChkEv])
      · simp at h
      · simp at h
      · simp at h
    · intro hprem
      have hm := dl_req_mem env uri hprem
      rw [hdl] at hm
      simp only at hm
      rw [htr, hext2]
      simp only [List.mem_append, List.mem_cons]
      exact Or.inr (Or.inr (Or.inr (Or.inr (Or.inr (Or.inl hm)))))
    · intro e2 hde
      simp at hde
    · intro p2 hdp
      simp only [Except.ok.injEq] at hdp
      subst hdp
      refine ⟨?_, ?_, ?_⟩
      · rw [hcount (Ev.uncompressFile p) rfl rfl (by simp), hext2]
        exact hcnt
      · intro hn
        rw [hout1, hext1, hn]
      · intro e3 he3
        rw [hout1, hext1, he3]

/-- Witness instantiating c2_fallback on a remote run whose streaming
extraction fails and whose fallback download and extraction succeed. -/
theorem c2_fallback_witness :
    countEv Ev.fallback (mainRun envC2).2 = 1 ∧
    countEv Ev.extractStream (mainRun envC2).2 = 1 ∧
    Ev.request .fallbackDownload "https://dl.example/a" none ∈ (mainRun envC2).2 ∧
    countEv (Ev.uncompressFile "/tmp/cache-archive.tar") (mainRun envC2).2 = 1 ∧
    (mainRun envC2).1 = .ok := by
  have h := c2_fallback envC2 "https://dl.example/a"
    [Ev.request .urlLookup "https://api.example/c" (some 20), Ev.closeBody .urlLookup,
     Ev.request .streamDownload "https://dl.example/a" none]
    "unexpected EOF" (by decide) rfl (Or.inl (by decide)) rfl
  refine ⟨h.1, h.2.1, h.2.2.2.1 (by decide), ?_, ?_⟩
  · exact (h.2.2.2.2.2 "/tmp/cache-archive.tar" rfl).1
  · exact (h.2.2.2.2.2 "/tmp/cache-archive.tar" rfl).2.1 rfl

/-! ### Claim C5 -/

/-- Handle-release events: a response-body close, a file close, a close of
the main archive stream. -/
def isCloseEv : Ev → Bool
  | .closeBody _ => true
  | .closeFile _ => true
  | .closeStream => true
  | _ => false

/-- An event that no phase of the pipeline can produce never appears in a
run's trace. -/
theorem never_ev (env : Env) (e : Ev)
    (h1 : isAcqEv e = false) (h2 : isChkEv e = false)
    (h3 : isExtEv e = false) (h4 : e ≠ Ev.wrapRestore) :
    e ∉ (mainRun env).2 := by
  by_cases hapi : env.cacheAPIURL = ""
  · simp [mainRun, hapi]
  · rcases hacq2 : acquire env with ⟨r, tr0⟩
    rcases r with e0 | uri
    · have hm : mainRun env = (.failed e0, tr0) := by simp [mainRun, hapi, hacq2]
      rw [hm]
      exact acq_not_mem_any hacq2 h1
    · by_cases hb : goTrimSpace env.stackID = ""
      · rw [mem_mainRun_blank env uri tr0 e hapi hacq2 hb]
        simp only [not_or]
        exact ⟨acq_not_mem_any hacq2 h1, h4, ext_not_mem h3⟩
      · rw [mem_mainRun_pos env uri tr0 e hapi hacq2 hb]
        simp only [not_or]
        refine ⟨acq_not_mem_any hacq2 h1, h4,
          not_mem_of_all (chk_events env _) h2, ?_⟩
        rintro ⟨_, hmem⟩
        exact ext_not_mem h3 hmem

/-- Claim C5 states that every acquired stream source and file handle is
released on every exit path, the archive byte stream being closed exactly
once on pipeline exit.  This concrete successful run opens a local archive
stream and terminates successfully with not a single release event in its
trace, refuting the claim. -/
theorem c5_counterexample :
    (mainRun envC5).1 = .ok ∧
    Ev.openLocal "/c.tar" ∈ (mainRun envC5).2 ∧
    ((mainRun envC5).2.filter isCloseEv).length = 0 := by
  exact ⟨by decide, by decide, by decide⟩

/-- Claim C5 (amended): only the HTTP response bodies acquired inside the
three helper functions are explicitly released: the download-URL lookup
body is closed exactly once whenever the request yields a response, the
fallback-download body is closed exactly once whenever its request yields a
response, and performRequest returns the 200-response body to the caller
unclosed; the archive stream acquired by main and the file created at
/tmp/cache-archive.tar are never closed by the pipeline on any path (they
are released only at process exit). -/
theorem c5_release_discipline :
    (∀ (env : Env) (u : String), env.newReqErr = none →
      ((getCacheDownloadURL env u).2.filter isCloseEv).length =
        (match env.doTimeout u 20 with | .ok _ => 1 | .error _ => 0)) ∧
    (∀ (env : Env) (u : String), hasPre u "file://" = false →
      ((downloadCacheArchive env u).2.filter isCloseEv).length =
        (match env.get u with | .ok _ => 1 | .error _ => 0) ∧
      (∀ pth, Ev.closeFile pth ∉ (downloadCacheArchive env u).2)) ∧
    (∀ (env : Env) (u : String) (resp : HttpResp), env.get u = .ok resp →
      resp.status = 200 →
      performRequest env u = (.ok (), [.request .streamDownload u none])) ∧
    (∀ env : Env, Ev.closeStream ∉ (mainRun env).2 ∧
      (∀ pth, Ev.closeFile pth ∉ (mainRun env).2)) := by
  refine ⟨?_, ?_, ?_, ?_⟩
  · intro env u hn
    rcases hd : env.doTimeout u 20 with e1 | resp <;>
      simp [getCacheDownloadURL, hn, hd, isCloseEv]
  · intro env u hp
    constructor
    · rcases hg : env.get u with e1 | resp
      · simp [downloadCacheArchive, hp, hg, isCloseEv]
      · by_cases hs : resp.status = 200
        · by_cases hc : env.createOk cacheArchivePath
          · by_cases hcp : env.copyOk <;>
              simp [downloadCacheArchive, hp, hg, hs, hc, hcp, isCloseEv]
          · by_cases hb : resp.bodyReadOk <;>
              simp [downloadCacheArchive, hp, hg, hs, hc, hb, isCloseEv]
        · by_cases hb : resp.bodyReadOk <;>
            simp [downloadCacheArchive, hp, hg, hs, hb, isCloseEv]
    · intro pth
      exact not_mem_of_all (dl_events env u) (e := Ev.closeFile pth) rfl
  · intro env u resp hg hs
    simp [performRequest, hg, hs]
  · intro env
    exact ⟨never_ev env Ev.closeStream rfl rfl rfl (by simp),
      fun pth => never_ev env (Ev.closeFile pth) rfl rfl rfl (by simp)⟩

/-- Witness instantiating c5_release_discipline on the remote run envC2. -/
theorem c5_release_discipline_witness :
    ((getCacheDownloadURL envC2 "https://api.example/c").2.filter isCloseEv).length = 1 ∧
    ((downloadCacheArchive envC2 "https://dl.example/a").2.filter isCloseEv).length = 1 ∧
    (∀ pth, Ev.closeFile pth ∉ (downloadCacheArchive envC2 "https://dl.example/a").2) ∧
    performRequest envC2 "https://dl.example/a" =
      (.ok (), [.request .streamDownload "https://dl.example/a" none]) ∧
    Ev.closeStream ∉ (mainRun envC2).2 := by
  have h := c5_release_discipline
  refine ⟨(h.1 envC2 "https://api.example/c" rfl).trans rfl,
    ((h.2.1 envC2 "https://dl.example/a" (by decide)).1).trans rfl,
    (h.2.1 envC2 "https://dl.example/a" (by decide)).2,
    h.2.2.1 envC2 "https://dl.example/a" { status := 200, body := "", bodyReadOk := true } rfl rfl,
    (h.2.2.2 envC2).1⟩

/-! ### Claim C8 -/

theorem foldStep_none (f : String) (fs : List (String × JVal)) :
    fs.foldl (decodeStep f) none = none := by
  induction fs with
  | nil => rfl
  | cons kv t ih => simp [List.foldl_cons, decodeStep, ih]

theorem foldStep_isSome (f : String) (fs : List (String × JVal)) :
    ∀ s : String, (fs.foldl (decodeStep f) (some s)).isSome = true ↔
      (∀ kv ∈ fs, eqFold kv.1 f = true →
        kv.2 = .jnull ∨ ∃ s2, kv.2 = .jstr s2) := by
  induction fs with
  | nil =>
    intro s
    simp
  | cons kv t ih =>
    intro s
    rw [List.foldl_cons, List.forall_mem_cons]
    rcases kv with ⟨k, v⟩
    by_cases hm : eqFold k f = true
    · rcases v with _ | bb | nl | sl | xs | ofs
      · simp only [decodeStep, hm, if_true]
        rw [ih s]
        simp [hm]
      · simp only [decodeStep, hm, if_true]
        rw [foldStep_none]
        simp [hm]
      · simp only [decodeStep, hm, if_true]
        rw [foldStep_none]
        simp [hm]
      · simp only [decodeStep, hm, if_true]
        rw [ih sl]
        simp [hm]
      · simp only [decodeStep, hm, if_true]
        rw [foldStep_none]
        simp [hm]
      · simp only [decodeStep, hm, if_true]
        rw [foldStep_none]
        simp [hm]
    · have hm2 : eqFold k f = false := by
        rcases hb : eqFold k f with _ | _
        · rfl
        · exact absurd hb hm
      simp only [decodeStep, hm2]
      rw [if_neg (by simp [hm2]), ih s]
      simp [hm2]

theorem foldStep_skip (f : String) (fs : List (String × JVal))
    (h : ∀ kv ∈ fs, eqFold kv.1 f = false) :
    ∀ s : String, fs.foldl (decodeStep f) (some s) = some s := by
  induction fs with
  | nil =>
    intro s
    rfl
  | cons kv t ih =>
    intro s
    have hk : eqFold kv.1 f = false := h kv (by simp)
    rw [List.foldl_cons]
    have hstep : decodeStep f (some s) kv = some s := by
      simp [decodeStep, hk]
    rw [hstep]
    exact ih (fun kv2 hm => h kv2 (by simp [hm])) s

/-- The documents Go's Unmarshal accepts for the archive-info struct: null,
or an object whose every stack_id member (case-insensitive name match)
holds a string or null. -/
def goodVal : JVal → Prop
  | .jnull => True
  | .jobj fs => ∀ kv ∈ fs, eqFold kv.1 "stack_id" = true →
      kv.2 = .jnull ∨ ∃ s2, kv.2 = .jstr s2
  | _ => False

theorem decodeField_iff (v : JVal) :
    (decodeField "stack_id" v).isSome = true ↔ goodVal v := by
  rcases v with _ | bb | nl | sl | xs | ofs
  · simp [decodeField, goodVal]
  · simp [decodeField, goodVal]
  · simp [decodeField, goodVal]
  · simp [decodeField, goodVal]
  · simp [decodeField, goodVal]
  · rw [show decodeField "stack_id" (.jobj ofs) =
      ofs.foldl (decodeStep "stack_id") (some "") from rfl]
    rw [foldStep_isSome "stack_id" ofs ""]
    rfl

/-- Claim C8 asserts parseStackID errors exactly on JSON that is not valid;
the bytes "[]" form a valid JSON document yet parseStackID rejects them
(the struct decode fails on an array), refuting the stated equivalence --
while the absence half of the contract does hold, as the empty object
shows. -/
theorem c8_counterexample :
    validJson "[]" = true ∧ exOk (parseStackID "[]") = false ∧
    parseStackID "\x7b\x7d" = .ok "" := ⟨rfl, rfl, rfl⟩

/-- Claim C8 (amended): parseStackID returns an error exactly when the
bytes are not one valid JSON document or the document is not unmarshalable
into the archive-info struct (top level neither null nor an object, or a
stack_id member holding a value that is neither a string nor null); on a
valid JSON object without any stack_id member it returns the empty string
with no error. -/
theorem c8_parse_contract (b : String) :
    (exOk (parseStackID b) = true ↔ (∃ v, jsonParse b = some v ∧ goodVal v)) ∧
    (∀ fs, jsonParse b = some (.jobj fs) →
      (∀ kv ∈ fs, eqFold kv.1 "stack_id" = false) →
      parseStackID b = .ok "") := by
  constructor
  · rcases hj : jsonParse b with _ | v
    · simp [parseStackID, hj, exOk]
    · rcases hd : decodeField "stack_id" v with _ | s
      · have hng : ¬ goodVal v := by
          rw [← decodeField_iff]
          simp [hd]
      
        simp [parseStackID, hj, hd, exOk, hng]
      · have hg : goodVal v := (decodeField_iff v).mp (by simp [hd])
        constructor
        · intro _
          exact ⟨v, rfl, hg⟩
        · intro _
          simp [parseStackID, hj, hd, exOk]
  · intro fs hj hnone
    have hfold : fs.foldl (decodeStep "stack_id") (some "") = some "" :=
      foldStep_skip "stack_id" fs hnone ""
    simp [parseStackID, hj, decodeField, hfold]

/-- Witness instantiating c8_parse_contract on a one-member object whose
member name does not match stack_id. -/
theorem c8_parse_contract_witness :
    parseStackID "\x7b\"a\":1\x7d" = .ok "" := by
  refine (c8_parse_contract "\x7b\"a\":1\x7d").2 [("a", JVal.jnum "1")] ?_ ?_
  · rfl
  · decide
